import Mathlib

/-!
Shallow embedding of the todo-app worker (src/index.ts): password hashing
(scrypt + hex credential encoding), JWT issuance/validation (jsonwebtoken),
the auth middleware, and the signup/signin/todo route handlers.
-/

namespace TodoApp

/-! ## Hex encoding (model of noble/hashes bytesToHex and hexToBytes)

Bytes are modelled as natural numbers; a well-formed byte is `< 256`.
`hexToBytes` throws on a malformed hex string, modelled as `none`.
-/

/-- Lowercase hex digit for a nibble, as produced by bytesToHex. -/
def hexDigit (n : Nat) : Char :=
  if n < 10 then Char.ofNat (48 + n) else Char.ofNat (87 + n)

/-- Two lowercase hex characters of one byte. -/
def byteToHex (b : Nat) : List Char :=
  [hexDigit (b / 16), hexDigit (b % 16)]

/-- Character list of the hex rendering of a byte array. -/
def bytesToHexL (bs : List Nat) : List Char :=
  bs.flatMap byteToHex

/-- Model of noble bytesToHex: lowercase hex string of a byte array. -/
def bytesToHex (bs : List Nat) : String :=
  ⟨bytesToHexL bs⟩

/-- Value of one hex character (noble accepts 0-9, a-f, A-F); `none` on
any other character. -/
def hexVal (c : Char) : Option Nat :=
  if 48 ≤ c.toNat ∧ c.toNat ≤ 57 then some (c.toNat - 48)
  else if 97 ≤ c.toNat ∧ c.toNat ≤ 102 then some (c.toNat - 87)
  else if 65 ≤ c.toNat ∧ c.toNat ≤ 70 then some (c.toNat - 55)
  else none

/-- Model of noble hexToBytes on a character list: fails (throws) on odd
length or on a non-hex character. -/
def hexToBytesL : List Char → Option (List Nat)
  | [] => some []
  | [_] => none
  | c1 :: c2 :: rest =>
    match hexVal c1, hexVal c2, hexToBytesL rest with
    | some h, some l, some bs => some ((h * 16 + l) :: bs)
    | _, _, _ => none

/-- Model of noble hexToBytes on a string. -/
def hexToBytes (s : String) : Option (List Nat) :=
  hexToBytesL s.data

/-! ## JavaScript String.prototype.split with a single-character separator -/

/-- Split a character list at every occurrence of the separator; the result
is always non-empty and keeps empty segments, as JS split does. -/
def splitCore (sep : Char) : List Char → List (List Char)
  | [] => [[]]
  | c :: rest =>
    if c = sep then [] :: splitCore sep rest
    else
      match splitCore sep rest with
      | [] => [[c]]
      | part :: parts => (c :: part) :: parts

/-- Model of JS split(sep) for a one-character separator. -/
def jsSplit (sep : Char) (s : String) : List String :=
  (splitCore sep s.data).map (fun l => ⟨l⟩)

/-- JS truthiness test for an optional string: undefined and the empty
string are falsy. -/
def jsFalsy (o : Option String) : Bool :=
  o.getD "" == ""

/-! ## Password hasher (hashPassword / verifyPassword in src/index.ts)

scrypt (an external primitive, called with N = 2^16, r = 8, p = 1,
dkLen = 32) is a parameter: a function from the password and the salt
bytes to the derived key bytes. The 16 random salt bytes drawn by
crypto.getRandomValues are an explicit input.
-/

/-- hashPassword: derives the key and serializes the credential as
hex(salt) ++ ":" ++ hex(hash). -/
def hashPassword (scryptFn : String → List Nat → List Nat)
    (salt : List Nat) (password : String) : String :=
  bytesToHex salt ++ ":" ++ bytesToHex (scryptFn password salt)

/-- verifyPassword: splits the stored credential on the colon, returns
false when the salt or hash part is missing or empty, re-derives with the
stored salt and compares hex strings. hexToBytes throws on a non-hex salt
part; a thrown error is `Except.error`. -/
def verifyPassword (scryptFn : String → List Nat → List Nat)
    (password hashedPassword : String) : Except String Bool :=
  let parts := jsSplit ':' hashedPassword
  let saltHex := parts.headD ""
  let hashHex := (parts[1]?).getD ""
  if saltHex = "" ∨ hashHex = "" then Except.ok false
  else
    match hexToBytes saltHex with
    | none => Except.error "hex string expected"
    | some salt => Except.ok (bytesToHex (scryptFn password salt) == hashHex)

/-! ## Token service (jsonwebtoken jwt.sign / jwt.verify)

A token binds a payload and a signature. The HMAC primitive is a
parameter `mac`. jsonwebtoken rejects a falsy secret: jwt.sign throws
"secretOrPrivateKey must have a value" and jwt.verify throws
"secret or public key must be provided" when the secret is empty.
-/

structure JwtPayload where
  userId : String
deriving DecidableEq, Repr

structure SignedToken where
  payload : JwtPayload
  sig : String
deriving DecidableEq, Repr

/-- Model of jwt.sign(payload, secret): throws on an empty secret,
otherwise attaches the signature over the payload. -/
def jwtSign (mac : String → JwtPayload → String)
    (payload : JwtPayload) (secret : String) : Except String SignedToken :=
  if secret = "" then Except.error "secretOrPrivateKey must have a value"
  else Except.ok ⟨payload, mac secret payload⟩

/-- Model of jwt.verify(token, secret): throws on an empty secret or a
signature mismatch, otherwise returns the decoded payload. -/
def jwtVerify (mac : String → JwtPayload → String)
    (token : SignedToken) (secret : String) : Except String JwtPayload :=
  if secret = "" then Except.error "secret or public key must be provided"
  else if token.sig = mac secret token.payload then Except.ok token.payload
  else Except.error "invalid signature"

/-! ## Auth middleware (app.use in src/index.ts)

The middleware reads the Authorization header, takes the second
space-separated word as the token, answers 401 when that word is absent
or empty, and otherwise calls jwt.verify on it. jwt.verify on a raw
header string is a parameter `verify` from token strings to payloads so
that every failure behavior of the library is covered. There is no
try/catch in the middleware: a throwing verify propagates, and Hono's
default error handler turns it into a 500 response.
-/

inductive MwResult where
  /-- Responded 401 with message "Unauthorized". -/
  | unauthorized : MwResult
  /-- jwt.verify threw and nothing caught it (Hono default: HTTP 500). -/
  | thrown (e : String) : MwResult
  /-- Bound userId into context and called next(). -/
  | proceed (userId : String) : MwResult
deriving DecidableEq, Repr

/-- Token extraction: c.req.header("Authorization")?.split(" ")[1]. -/
def extractToken (authHeader : Option String) : Option String :=
  authHeader.bind (fun h => (jsSplit ' ' h)[1]?)

/-- The middleware body. The source's `if (!decoded)` check is dead code:
jwt.verify either throws or returns the (truthy) payload object, so that
branch can never fire and is not a reachable 401 path. -/
def authMiddleware (verify : String → Except String JwtPayload)
    (authHeader : Option String) : MwResult :=
  match extractToken authHeader with
  | none => MwResult.unauthorized
  | some t =>
    if t = "" then MwResult.unauthorized
    else
      match verify t with
      | Except.error e => MwResult.thrown e
      | Except.ok decoded => MwResult.proceed decoded.userId

/-- HTTP status the client sees for a middleware outcome that does not
reach a handler; an uncaught throw hits Hono's default error handler,
which responds 500. `none` means the pipeline continued to the handler. -/
def gateStatus : MwResult → Option Nat
  | MwResult.unauthorized => some 401
  | MwResult.thrown _ => some 500
  | MwResult.proceed _ => none

/-! ## Data model and persistence store -/

structure User where
  id : String
  email : String
  password : String
deriving DecidableEq, Repr

structure Todo where
  id : Nat
  title : String
  description : String
  completed : Bool
  userId : String
deriving DecidableEq, Repr

/-- prismaClient.user.findFirst with an exact email filter. -/
def findFirstUser (users : List User) (email : String) : Option User :=
  users.find? (fun u => u.email == email)

/-- prismaClient.todo.findMany with an exact userId filter. -/
def findManyTodos (todos : List Todo) (userId : String) : List Todo :=
  todos.filter (fun t => t.userId == userId)

/-! ## Account handler (signup / signin routes) -/

/-- JS a || b for an optional string left operand: undefined and "" are
falsy and fall through to the right operand. -/
def jsOrElse (a : Option String) (b : String) : String :=
  match a with
  | some s => if s = "" then b else s
  | none => b

inductive SignupResult where
  /-- 400 with the given message. -/
  | badRequest (msg : String) : SignupResult
  /-- 200 with the new user's id. -/
  | okUser (userId : String) : SignupResult
deriving DecidableEq, Repr

/-- The signup route: missing/empty field → 400, existing email → 400,
otherwise hash the password, persist the user and return its id. The
store-assigned id and the random salt are explicit inputs. Returns the
response and the updated user store. -/
def signup (scryptFn : String → List Nat → List Nat) (salt : List Nat)
    (newId : String) (users : List User)
    (email password : Option String) : SignupResult × List User :=
  if jsFalsy email || jsFalsy password then
    (SignupResult.badRequest "Please provide email and password", users)
  else
    match findFirstUser users (email.getD "") with
    | some _ => (SignupResult.badRequest "User already exists", users)
    | none =>
      let hashed := hashPassword scryptFn salt (password.getD "")
      let user : User := ⟨newId, email.getD "", hashed⟩
      (SignupResult.okUser newId, users ++ [user])

inductive SigninResult where
  /-- 400 with the given message. -/
  | badRequest (msg : String) : SigninResult
  /-- 200 with the issued token. -/
  | okToken (token : SignedToken) : SigninResult
  /-- 500: an exception was caught by the handler's try/catch. -/
  | serverError (e : String) : SigninResult
deriving DecidableEq, Repr

/-- The signin route: missing/empty field → 400, unknown email → 400,
wrong password → 400; the secret is env JWT_SECRET || process JWT_SECRET
|| "" and jwt.sign is called with it; any exception (verifyPassword on a
non-hex stored salt, or jwt.sign on an empty secret) is caught and
answered 500. -/
def signin (mac : String → JwtPayload → String)
    (scryptFn : String → List Nat → List Nat) (users : List User)
    (envSecret procSecret : Option String)
    (email password : Option String) : SigninResult :=
  if jsFalsy email || jsFalsy password then
    SigninResult.badRequest "Please provide email and password"
  else
    match findFirstUser users (email.getD "") with
    | none => SigninResult.badRequest "user doesn't exist"
    | some user =>
      match verifyPassword scryptFn (password.getD "") user.password with
      | Except.error e => SigninResult.serverError e
      | Except.ok false => SigninResult.badRequest "Invalid password"
      | Except.ok true =>
        let jwtSecret := jsOrElse envSecret (jsOrElse procSecret "")
        match jwtSign mac ⟨user.id⟩ jwtSecret with
        | Except.error e => SigninResult.serverError e
        | Except.ok token => SigninResult.okToken token

/-! ## Todo handler (todo create / todos list routes) -/

/-- JSON body of POST /api/v1/todo as the client may send it; the handler
destructures only title and description, so completed and any
client-supplied user id field are never read. -/
structure TodoBody where
  title : Option String
  description : Option String
  completed : Option Bool
  bodyUserId : Option String
deriving DecidableEq, Repr

inductive CreateTodoResult where
  /-- 400 with the given message. -/
  | badRequest (msg : String) : CreateTodoResult
  /-- 200 with the created todo. -/
  | okTodo (todo : Todo) : CreateTodoResult
deriving DecidableEq, Repr

/-- The todo-creation route: missing/empty title or description → 400;
otherwise persist a todo owned by the context userId set by the
middleware. todo.create receives only title, description and userId, so
the completed column takes the store default, which is false (the Prisma
schema declares the default; the spec records it as "completed (boolean,
default false)"). Returns the response and the updated todo store. -/
def createTodo (ctxUserId : String) (body : TodoBody)
    (todos : List Todo) (newId : Nat) : CreateTodoResult × List Todo :=
  if jsFalsy body.title || jsFalsy body.description then
    (CreateTodoResult.badRequest "Please provide title and description", todos)
  else
    let todo : Todo :=
      { id := newId
        title := body.title.getD ""
        description := body.description.getD ""
        completed := false
        userId := ctxUserId }
    (CreateTodoResult.okTodo todo, todos ++ [todo])

inductive ListTodosResult where
  /-- 401 with message "Unauthorized". -/
  | unauthorized : ListTodosResult
  /-- 200 with the listed todos. -/
  | okTodos (todos : List Todo) : ListTodosResult
deriving DecidableEq, Repr

/-- The todo-listing route: re-extracts the bearer token and answers 401
when it is absent or empty, then lists the todos whose userId equals the
context userId set by the middleware. -/
def listTodos (ctxUserId : String) (authHeader : Option String)
    (todos : List Todo) : ListTodosResult :=
  match extractToken authHeader with
  | none => ListTodosResult.unauthorized
  | some t =>
    if t = "" then ListTodosResult.unauthorized
    else ListTodosResult.okTodos (findManyTodos todos ctxUserId)

/-! ## Helper lemmas: hex round-trip and split behavior -/

lemma hexVal_hexDigit {n : Nat} (h : n < 16) : hexVal (hexDigit n) = some n := by
  interval_cases n <;> decide

lemma hexDigit_ne_colon {n : Nat} (h : n < 16) : hexDigit n ≠ ':' := by
  interval_cases n <;> decide

lemma colon_not_mem_bytesToHexL {bs : List Nat} (h : ∀ b ∈ bs, b < 256) :
    ':' ∉ bytesToHexL bs := by
  induction bs with
  | nil => simp [bytesToHexL]
  | cons b bs ih =>
    have hb : b < 256 := h b (List.mem_cons_self b bs)
    have hdiv : b / 16 < 16 := by omega
    have hmod : b % 16 < 16 := Nat.mod_lt _ (by omega)
    have htail : ':' ∉ bytesToHexL bs := ih (fun x hx => h x (List.mem_cons_of_mem _ hx))
    simp only [bytesToHexL, List.flatMap_cons, byteToHex, List.mem_append,
      List.mem_cons, List.not_mem_nil, or_false, not_or] at *
    exact ⟨⟨fun hc => hexDigit_ne_colon hdiv hc.symm,
      fun hc => hexDigit_ne_colon hmod hc.symm⟩, htail⟩

lemma hexToBytesL_bytesToHexL {bs : List Nat} (h : ∀ b ∈ bs, b < 256) :
    hexToBytesL (bytesToHexL bs) = some bs := by
  induction bs with
  | nil => rfl
  | cons b bs ih =>
    have hb : b < 256 := h b (List.mem_cons_self b bs)
    have hdiv : b / 16 < 16 := by omega
    have hmod : b % 16 < 16 := Nat.mod_lt _ (by omega)
    have htail := ih (fun x hx => h x (List.mem_cons_of_mem _ hx))
    have hstep : bytesToHexL (b :: bs) =
        hexDigit (b / 16) :: hexDigit (b % 16) :: bytesToHexL bs := by
      simp [bytesToHexL, byteToHex]
    rw [hstep]
    simp only [hexToBytesL, hexVal_hexDigit hdiv, hexVal_hexDigit hmod, htail]
    have hb16 : b / 16 * 16 + b % 16 = b := by omega
    rw [hb16]

lemma bytesToHexL_length (bs : List Nat) :
    (bytesToHexL bs).length = 2 * bs.length := by
  induction bs with
  | nil => rfl
  | cons b bs ih =>
    simp [bytesToHexL, byteToHex, List.flatMap_cons] at *
    omega

lemma splitCore_of_not_mem {sep : Char} {l : List Char} (h : sep ∉ l) :
    splitCore sep l = [l] := by
  induction l with
  | nil => rfl
  | cons c rest ih =>
    simp only [List.mem_cons, not_or] at h
    have hne : ¬ c = sep := fun hc => h.1 hc.symm
    rw [splitCore, if_neg hne, ih h.2]

lemma splitCore_append {sep : Char} {l1 l2 : List Char} (h : sep ∉ l1) :
    splitCore sep (l1 ++ sep :: l2) = l1 :: splitCore sep l2 := by
  induction l1 with
  | nil =>
    simp only [List.nil_append]
    rw [splitCore, if_pos rfl]
  | cons c rest ih =>
    simp only [List.mem_cons, not_or] at h
    have hne : ¬ c = sep := fun hc => h.1 hc.symm
    simp only [List.cons_append]
    rw [splitCore, if_neg hne, ih h.2]

lemma splitCore_ne_nil (sep : Char) (l : List Char) : splitCore sep l ≠ [] := by
  cases l with
  | nil => simp [splitCore]
  | cons c rest =>
    rw [splitCore]
    by_cases hc : c = sep
    · simp [hc]
    · rw [if_neg hc]
      cases splitCore sep rest <;> simp

lemma bytesToHexL_ne_nil {bs : List Nat} (h : bs ≠ []) : bytesToHexL bs ≠ [] := by
  intro hc
  have := bytesToHexL_length bs
  rw [hc] at this
  simp only [List.length_nil] at this
  have hz : bs.length = 0 := by omega
  exact h (List.eq_nil_of_length_eq_zero hz)

lemma bytesToHex_ne_empty {bs : List Nat} (h : bs ≠ []) : bytesToHex bs ≠ "" := by
  intro hc
  have : (bytesToHex bs).data = ("" : String).data := by rw [hc]
  exact bytesToHexL_ne_nil h this

lemma data_hashPassword (scryptFn : String → List Nat → List Nat)
    (salt : List Nat) (p : String) :
    (hashPassword scryptFn salt p).data =
      bytesToHexL salt ++ ':' :: bytesToHexL (scryptFn p salt) := by
  show ((bytesToHex salt ++ ":") ++ bytesToHex (scryptFn p salt)).data = _
  rw [String.data_append, String.data_append]
  show (bytesToHexL salt ++ [':']) ++ bytesToHexL (scryptFn p salt) = _
  rw [List.append_assoc]
  rfl

lemma jsSplit_hashPassword (scryptFn : String → List Nat → List Nat)
    (salt : List Nat) (p : String)
    (hs : ∀ b ∈ salt, b < 256) (ho : ∀ b ∈ scryptFn p salt, b < 256) :
    jsSplit ':' (hashPassword scryptFn salt p) =
      [bytesToHex salt, bytesToHex (scryptFn p salt)] := by
  unfold jsSplit
  rw [data_hashPassword, splitCore_append (colon_not_mem_bytesToHexL hs),
    splitCore_of_not_mem (colon_not_mem_bytesToHexL ho)]
  rfl

lemma verifyPassword_hashPassword (scryptFn : String → List Nat → List Nat)
    (salt : List Nat) (p : String)
    (hs : ∀ b ∈ salt, b < 256) (ho : ∀ b ∈ scryptFn p salt, b < 256)
    (hsn : salt ≠ []) (hon : scryptFn p salt ≠ []) :
    verifyPassword scryptFn p (hashPassword scryptFn salt p) = Except.ok true := by
  unfold verifyPassword
  rw [jsSplit_hashPassword scryptFn salt p hs ho]
  simp only [List.headD_cons]
  rw [show ([bytesToHex salt, bytesToHex (scryptFn p salt)][1]?) =
    some (bytesToHex (scryptFn p salt)) from rfl]
  simp only [Option.getD_some]
  rw [if_neg (by
    push_neg
    exact ⟨bytesToHex_ne_empty hsn, bytesToHex_ne_empty hon⟩)]
  rw [show hexToBytes (bytesToHex salt) = hexToBytesL (bytesToHexL salt) from rfl,
    hexToBytesL_bytesToHexL hs]
  simp

lemma find?_append_of_none {α : Type} {q : α → Bool} {l1 l2 : List α}
    (h : l1.find? q = none) : (l1 ++ l2).find? q = l2.find? q := by
  induction l1 with
  | nil => simp
  | cons a l ih =>
    by_cases pa : q a = true
    · rw [List.find?_cons_of_pos _ pa] at h
      exact absurd h (by simp)
    · rw [List.find?_cons_of_neg _ pa] at h
      rw [List.cons_append, List.find?_cons_of_neg _ pa]
      exact ih h

/-- The first signup on a store without the email persists exactly the new
user. -/
lemma signup_fresh_eq (scryptFn : String → List Nat → List Nat)
    (salt : List Nat) (newId : String) (users : List User) (e p : String)
    (he : e ≠ "") (hp : p ≠ "") (hnone : findFirstUser users e = none) :
    signup scryptFn salt newId users (some e) (some p) =
      (SignupResult.okUser newId,
        users ++ [⟨newId, e, hashPassword scryptFn salt p⟩]) := by
  unfold signup
  rw [if_neg (by simp [jsFalsy, he, hp])]
  simp only [Option.getD_some, hnone]

/-- The handler result for a successful todo creation always carries the
context userId as owner. -/
lemma createTodo_ok_owner (ctxUserId : String) (body : TodoBody)
    (todos : List Todo) (newId : Nat) (todo : Todo) (store : List Todo)
    (h : createTodo ctxUserId body todos newId =
      (CreateTodoResult.okTodo todo, store)) :
    todo.userId = ctxUserId := by
  unfold createTodo at h
  by_cases hc : (jsFalsy body.title || jsFalsy body.description) = true
  · rw [if_pos hc] at h
    simp at h
  · rw [if_neg hc] at h
    simp only [Prod.mk.injEq, CreateTodoResult.okTodo.injEq] at h
    rw [← h.1]

/-- A successful todo listing is exactly the store filtered by the context
userId. -/
lemma listTodos_ok_eq (u : String) (hdr : Option String) (todos ts : List Todo)
    (h : listTodos u hdr todos = ListTodosResult.okTodos ts) :
    ts = findManyTodos todos u := by
  unfold listTodos at h
  cases hx : extractToken hdr with
  | none =>
    rw [hx] at h
    simp at h
  | some tok =>
    rw [hx] at h
    replace h : (if tok = "" then ListTodosResult.unauthorized
        else ListTodosResult.okTodos (findManyTodos todos u)) =
        ListTodosResult.okTodos ts := h
    by_cases htok : tok = ""
    · rw [if_pos htok] at h
      simp at h
    · rw [if_neg htok] at h
      simp only [ListTodosResult.okTodos.injEq] at h
      exact h.symm

/-! ## Claims -/

/-- C5: for every password P, verifying P against the credential produced
by hashing P returns true, for every 16-byte salt the random source may
produce (scrypt is called with dkLen = 32, so its output is 32 bytes). -/
theorem c5_hash_verify_roundtrip (scryptFn : String → List Nat → List Nat)
    (salt : List Nat) (p : String)
    (hlen : salt.length = 16) (hs : ∀ b ∈ salt, b < 256)
    (holen : (scryptFn p salt).length = 32)
    (ho : ∀ b ∈ scryptFn p salt, b < 256) :
    verifyPassword scryptFn p (hashPassword scryptFn salt p) = Except.ok true :=
  verifyPassword_hashPassword scryptFn salt p hs ho
    (by intro hc; rw [hc] at hlen; simp at hlen)
    (by intro hc; rw [hc] at holen; simp at holen)

/-- Witness for C5 at a concrete derivation function, salt and password. -/
theorem c5_hash_verify_roundtrip_witness :
    verifyPassword (fun _ _ => List.replicate 32 7) "hunter2"
      (hashPassword (fun _ _ => List.replicate 32 7)
        (List.replicate 16 3) "hunter2") = Except.ok true :=
  c5_hash_verify_roundtrip (fun _ _ => List.replicate 32 7)
    (List.replicate 16 3) "hunter2"
    (by decide) (by decide) (by decide) (by decide)

/-- C2 counterexample: on the stored credential "zz:aa" (both parts
present and non-empty, salt part not hex), verifyPassword does not return
false: hexToBytes throws, so the call raises instead. -/
theorem c2_nonhex_salt_throws :
    verifyPassword (fun _ _ => List.replicate 32 0) "p" "zz:aa" =
      Except.error "hex string expected"
    ∧ verifyPassword (fun _ _ => List.replicate 32 0) "p" "zz:aa" ≠
      Except.ok false := by
  refine ⟨rfl, fun h => ?_⟩
  rw [show verifyPassword (fun _ _ => List.replicate 32 0) "p" "zz:aa" =
    Except.error "hex string expected" from rfl] at h
  exact Except.noConfusion h

/-- C2 amended: verifyPassword returns false (without throwing) whenever
the split yields a missing or empty salt or hash part, and it throws
exactly when both parts are non-empty but the salt part is not a valid
hex string. -/
theorem c2_verify_malformed (scryptFn : String → List Nat → List Nat)
    (p cred : String) :
    (((jsSplit ':' cred).headD "" = "" ∨ (((jsSplit ':' cred)[1]?).getD "" = "")) →
      verifyPassword scryptFn p cred = Except.ok false)
    ∧ ((∃ e, verifyPassword scryptFn p cred = Except.error e) ↔
      ((jsSplit ':' cred).headD "" ≠ "" ∧ (((jsSplit ':' cred)[1]?).getD "") ≠ "" ∧
        hexToBytes ((jsSplit ':' cred).headD "") = none)) := by
  constructor
  · intro h
    unfold verifyPassword
    rw [if_pos h]
  · constructor
    · rintro ⟨e, he⟩
      unfold verifyPassword at he
      by_cases hif : (jsSplit ':' cred).headD "" = "" ∨
          (((jsSplit ':' cred)[1]?).getD "" = "")
      · rw [if_pos hif] at he
        simp at he
      · rw [if_neg hif] at he
        push_neg at hif
        cases hx : hexToBytes ((jsSplit ':' cred).headD "") with
        | none => exact ⟨hif.1, hif.2, rfl⟩
        | some salt =>
          rw [hx] at he
          simp at he
    · rintro ⟨h1, h2, h3⟩
      unfold verifyPassword
      rw [if_neg (by push_neg; exact ⟨h1, h2⟩), h3]
      exact ⟨_, rfl⟩

/-- Witness for C2 amended: a credential with no separator makes
verifyPassword return false. -/
theorem c2_verify_malformed_witness :
    verifyPassword (fun _ _ => List.replicate 32 0) "p" "nocolon" =
      Except.ok false :=
  (c2_verify_malformed (fun _ _ => List.replicate 32 0) "p" "nocolon").1
    (by decide)

/-- C6: validating a token issued for a userId with the same (non-empty)
secret yields that userId back. -/
theorem c6_token_roundtrip (mac : String → JwtPayload → String)
    (secret userId : String) (hsec : secret ≠ "") :
    (jwtSign mac ⟨userId⟩ secret).bind (fun t => jwtVerify mac t secret) =
      Except.ok ⟨userId⟩ := by
  simp [jwtSign, jwtVerify, hsec, Except.bind]

/-- Witness for C6 at a concrete mac, secret and userId. -/
theorem c6_token_roundtrip_witness :
    (jwtSign (fun s q => s ++ q.userId) ⟨"u1"⟩ "s3cret").bind
      (fun t => jwtVerify (fun s q => s ++ q.userId) t "s3cret") =
      Except.ok ⟨"u1"⟩ :=
  c6_token_roundtrip (fun s q => s ++ q.userId) "s3cret" "u1" (by decide)

/-- C4: when a signin request reaches token issuance with the env and
process secrets both absent or empty, jwt.sign throws its configuration
error and the handler answers 500; no token is produced. -/
theorem c4_empty_secret_fails (mac : String → JwtPayload → String)
    (scryptFn : String → List Nat → List Nat) (users : List User)
    (envSecret procSecret : Option String) (email password : String)
    (user : User)
    (he : email ≠ "") (hp : password ≠ "")
    (hfind : findFirstUser users email = some user)
    (hverify : verifyPassword scryptFn password user.password = Except.ok true)
    (henv : envSecret = none ∨ envSecret = some "")
    (hproc : procSecret = none ∨ procSecret = some "") :
    signin mac scryptFn users envSecret procSecret (some email) (some password) =
      SigninResult.serverError "secretOrPrivateKey must have a value" := by
  have hsec : jsOrElse envSecret (jsOrElse procSecret "") = "" := by
    rcases henv with h | h <;> rcases hproc with h2 | h2 <;>
      simp [jsOrElse, h, h2]
  unfold signin
  rw [if_neg (by simp [jsFalsy, he, hp])]
  simp only [Option.getD_some, hfind, hverify, hsec]
  simp [jwtSign]

/-- Witness for C4: a concrete user whose password verifies, with both
secrets unset. -/
theorem c4_empty_secret_fails_witness :
    signin (fun s q => s ++ q.userId) (fun _ _ => List.replicate 32 0)
      [⟨"u1", "a", hashPassword (fun _ _ => List.replicate 32 0)
        (List.replicate 16 0) "pw"⟩]
      none none (some "a") (some "pw") =
      SigninResult.serverError "secretOrPrivateKey must have a value" :=
  c4_empty_secret_fails (fun s q => s ++ q.userId)
    (fun _ _ => List.replicate 32 0) _ none none "a" "pw"
    ⟨"u1", "a", hashPassword (fun _ _ => List.replicate 32 0)
      (List.replicate 16 0) "pw"⟩
    (by decide) (by decide) (by decide) rfl
    (Or.inl rfl) (Or.inl rfl)

/-- C1 (code bug): a request carrying "Bearer tampered" whose token fails
validation does not get the uniform 401: the middleware has no try/catch
around jwt.verify, so the throw escapes and Hono's default error handler
answers 500. -/
theorem c1_verify_throw_becomes_500 :
    authMiddleware (fun _ => Except.error "invalid signature")
      (some "Bearer tampered") = MwResult.thrown "invalid signature"
    ∧ gateStatus (authMiddleware (fun _ => Except.error "invalid signature")
      (some "Bearer tampered")) = some 500
    ∧ gateStatus (authMiddleware (fun _ => Except.error "invalid signature")
      (some "Bearer tampered")) ≠ some 401 := by
  refine ⟨rfl, rfl, ?_⟩
  intro h
  rw [show authMiddleware (fun _ => Except.error "invalid signature")
    (some "Bearer tampered") = MwResult.thrown "invalid signature" from rfl] at h
  simp [gateStatus] at h

/-- C9 counterexample: a malformed scheme is not rejected: with header
"Basic abc" the middleware extracts "abc", invokes token validation on
it, and (when validation accepts) proceeds to the downstream handler
instead of answering 401. -/
theorem c9_malformed_scheme_not_rejected :
    authMiddleware (fun _ => Except.ok ⟨"u1"⟩) (some "Basic abc") =
      MwResult.proceed "u1" := rfl

/-- C9 amended: for every validation function, the middleware answers 401
exactly when the Authorization header is absent or has no non-empty
second space-separated word; on that path no validation function is
consulted and the handler is not reached. The scheme word itself is never
inspected. -/
theorem c9_unauthorized_iff_no_token (verify : String → Except String JwtPayload)
    (authHeader : Option String) :
    authMiddleware verify authHeader = MwResult.unauthorized ↔
      (extractToken authHeader).getD "" = "" := by
  unfold authMiddleware
  cases h : extractToken authHeader with
  | none => simp
  | some t =>
    simp only [Option.getD_some]
    by_cases ht : t = ""
    · simp [ht]
    · rw [if_neg ht]
      cases verify t <;> simp [ht]

/-- C3 counterexample: a request supplying completed = true yields a todo
whose completed flag is false, not the supplied boolean. -/
theorem c3_completed_field_ignored :
    (createTodo "u1" ⟨some "t", some "d", some true, none⟩ [] 1).1 =
      CreateTodoResult.okTodo ⟨1, "t", "d", false, "u1"⟩
    ∧ (⟨1, "t", "d", false, "u1"⟩ : Todo).completed ≠ true := by
  exact ⟨rfl, by simp⟩

/-- C3 amended: for every authenticated create request with non-empty
title and description, the created todo's completed flag is false (the
store default) whatever completed value, if any, the body carries. -/
theorem c3_completed_always_false (ctxUserId t d : String) (comp : Option Bool)
    (buid : Option String) (todos : List Todo) (newId : Nat)
    (ht : t ≠ "") (hd : d ≠ "") :
    createTodo ctxUserId ⟨some t, some d, comp, buid⟩ todos newId =
      (CreateTodoResult.okTodo ⟨newId, t, d, false, ctxUserId⟩,
        todos ++ [⟨newId, t, d, false, ctxUserId⟩]) := by
  unfold createTodo
  rw [if_neg (by simp [jsFalsy, ht, hd])]
  simp

/-- Witness for C3 amended at a concrete request that supplies
completed = true. -/
theorem c3_completed_always_false_witness :
    createTodo "u1" ⟨some "t", some "d", some true, some "u9"⟩ [] 1 =
      (CreateTodoResult.okTodo ⟨1, "t", "d", false, "u1"⟩,
        [] ++ [⟨1, "t", "d", false, "u1"⟩]) :=
  c3_completed_always_false "u1" "t" "d" (some true) (some "u9") [] 1
    (by decide) (by decide)

/-- C7: signing up twice with the same email yields the new user's id on
the first call and the 400 conflict on the second, the second call leaves
the user store unchanged, and exactly one stored user has that email. -/
theorem c7_signup_conflict (scryptFn : String → List Nat → List Nat)
    (salt1 salt2 : List Nat) (id1 id2 : String) (users : List User)
    (e p : String) (he : e ≠ "") (hp : p ≠ "")
    (hnone : findFirstUser users e = none) :
    (signup scryptFn salt1 id1 users (some e) (some p)).1 =
      SignupResult.okUser id1
    ∧ signup scryptFn salt2 id2
        (signup scryptFn salt1 id1 users (some e) (some p)).2
        (some e) (some p) =
      (SignupResult.badRequest "User already exists",
        (signup scryptFn salt1 id1 users (some e) (some p)).2)
    ∧ ((signup scryptFn salt1 id1 users (some e) (some p)).2).countP
        (fun u => u.email == e) = 1 := by
  have h1 := signup_fresh_eq scryptFn salt1 id1 users e p he hp hnone
  have hz : ∀ u ∈ users, ¬((fun u : User => u.email == e) u = true) := by
    intro u hu
    exact List.find?_eq_none.mp hnone u hu
  have hfind2 : findFirstUser
      (users ++ [⟨id1, e, hashPassword scryptFn salt1 p⟩]) e =
      some ⟨id1, e, hashPassword scryptFn salt1 p⟩ := by
    unfold findFirstUser at hnone ⊢
    rw [find?_append_of_none hnone]
    simp
  refine ⟨by rw [h1], ?_, ?_⟩
  · rw [h1]
    unfold signup
    rw [if_neg (by simp [jsFalsy, he, hp])]
    simp only [Option.getD_some, hfind2]
  · rw [h1]
    simp only [List.countP_append]
    have hz0 : users.countP (fun u => u.email == e) = 0 :=
      List.countP_eq_zero.mpr hz
    rw [hz0]
    simp

/-- Witness for C7 on an initially empty user store. -/
theorem c7_signup_conflict_witness :
    (signup (fun _ _ => List.replicate 32 0) (List.replicate 16 0) "u1" []
      (some "a@x.com") (some "pw")).1 = SignupResult.okUser "u1"
    ∧ signup (fun _ _ => List.replicate 32 0) (List.replicate 16 1) "u2"
        (signup (fun _ _ => List.replicate 32 0) (List.replicate 16 0) "u1" []
          (some "a@x.com") (some "pw")).2 (some "a@x.com") (some "pw") =
      (SignupResult.badRequest "User already exists",
        (signup (fun _ _ => List.replicate 32 0) (List.replicate 16 0) "u1" []
          (some "a@x.com") (some "pw")).2)
    ∧ ((signup (fun _ _ => List.replicate 32 0) (List.replicate 16 0) "u1" []
        (some "a@x.com") (some "pw")).2).countP
        (fun u => u.email == "a@x.com") = 1 :=
  c7_signup_conflict (fun _ _ => List.replicate 32 0) (List.replicate 16 0)
    (List.replicate 16 1) "u1" "u2" [] "a@x.com" "pw"
    (by decide) (by decide) rfl

/-- C8: a successful todo listing for a userId contains a todo exactly
when the store holds it and its owner is that userId; a todo of another
user is never returned. -/
theorem c8_listTodos_scoping (u : String) (hdr : Option String)
    (todos ts : List Todo)
    (h : listTodos u hdr todos = ListTodosResult.okTodos ts) :
    ∀ t : Todo, t ∈ ts ↔ (t ∈ todos ∧ t.userId = u) := by
  intro t
  rw [listTodos_ok_eq u hdr todos ts h]
  simp [findManyTodos, List.mem_filter]

/-- Witness for C8 on a two-user store. -/
theorem c8_listTodos_scoping_witness :
    (⟨1, "t", "d", false, "u1"⟩ : Todo) ∈ [(⟨1, "t", "d", false, "u1"⟩ : Todo)] ↔
      ((⟨1, "t", "d", false, "u1"⟩ : Todo) ∈
        [(⟨1, "t", "d", false, "u1"⟩ : Todo), ⟨2, "x", "y", true, "u2"⟩] ∧
        (⟨1, "t", "d", false, "u1"⟩ : Todo).userId = "u1") :=
  c8_listTodos_scoping "u1" (some "Bearer tok")
    [⟨1, "t", "d", false, "u1"⟩, ⟨2, "x", "y", true, "u2"⟩]
    [⟨1, "t", "d", false, "u1"⟩] (by decide) ⟨1, "t", "d", false, "u1"⟩

/-- C10: the body's user-identifier field has no effect on todo creation,
every successfully created todo is owned by the context userId the gate
bound, and every successfully listed todo is owned by the context
userId. -/
theorem c10_owner_from_context (ctxUserId t d : String) (comp : Option Bool)
    (uid1 uid2 : Option String) (todos : List Todo) (newId : Nat)
    (hdr : Option String) :
    createTodo ctxUserId ⟨some t, some d, comp, uid1⟩ todos newId =
      createTodo ctxUserId ⟨some t, some d, comp, uid2⟩ todos newId
    ∧ (∀ todo store,
        createTodo ctxUserId ⟨some t, some d, comp, uid1⟩ todos newId =
          (CreateTodoResult.okTodo todo, store) → todo.userId = ctxUserId)
    ∧ (∀ ts, listTodos ctxUserId hdr todos = ListTodosResult.okTodos ts →
        ∀ todo ∈ ts, todo.userId = ctxUserId) := by
  refine ⟨rfl, ?_, ?_⟩
  · intro todo store h
    exact createTodo_ok_owner ctxUserId ⟨some t, some d, comp, uid1⟩
      todos newId todo store h
  · intro ts h todo hmem
    rw [listTodos_ok_eq ctxUserId hdr todos ts h] at hmem
    simp only [findManyTodos, List.mem_filter] at hmem
    exact (by simpa using hmem.2)

/-- Witness for C10: two bodies differing only in a client-supplied user
id give the same result, and a concrete successful creation is owned by
the context user. -/
theorem c10_owner_from_context_witness :
    (createTodo "ctx" ⟨some "t", some "d", some true, some "u9"⟩ [] 1 =
      createTodo "ctx" ⟨some "t", some "d", some true, some "u8"⟩ [] 1)
    ∧ (⟨1, "t", "d", false, "ctx"⟩ : Todo).userId = "ctx" :=
  ⟨(c10_owner_from_context "ctx" "t" "d" (some true) (some "u9") (some "u8")
      [] 1 (some "Bearer x")).1,
    (c10_owner_from_context "ctx" "t" "d" (some true) (some "u9") (some "u8")
      [] 1 (some "Bearer x")).2.1 ⟨1, "t", "d", false, "ctx"⟩
      [⟨1, "t", "d", false, "ctx"⟩] (by decide)⟩

end TodoApp
